import Mathlib

/-!
Verification of the supersql query-builder core (src/supersql/core and
src/supersql/engines/sqlite.py) against its natural-language specification.

The Python source is shallowly embedded: every class method that the claims
touch becomes a Lean function translated line by line from the source file
named in its doc comment.  The compiler objects of compiler.py carry one
mutable field, the placeholder counter; it is modelled by explicit state
passing through a `CompState` record.  `CompState` additionally carries a
ghost `trace` field recording, in order, every string returned by
`next_placeholder` during a run; no compile function ever reads it, it only
instruments placeholder emission so that ordering claims can be stated.
-/

/-- The three concrete dialects of compiler.py: PostgresCompiler,
MySQLCompiler, SQLiteCompiler. -/
inductive Dialect where
  | postgres
  | mysql
  | sqlite
deriving DecidableEq

/-- Compiler state: `count` is the `_placeholder_count` field of SQLCompiler
(compiler.py line 12); `trace` is ghost instrumentation listing every
placeholder string handed out by `next_placeholder`, in emission order. -/
structure CompState where
  count : Nat
  trace : List String
deriving DecidableEq

/-- Bound parameter values (the Python values that end up in the params
list).  Closed over the shapes the builder API passes: ints, strings,
booleans and None. -/
inductive Value where
  | int (i : Int)
  | str (s : String)
  | bool (b : Bool)
  | null
deriving DecidableEq

/-- Table from table.py lines 178-205: a name, an optional schema and an
optional alias.  Python stores `None` for an absent alias; an absent alias is
`none` here (the code tests `self._alias or self._name`, i.e. truthiness;
the degenerate empty-string alias is not modelled). -/
structure Table where
  name : String
  schema : Option String
  alias? : Option String

/-- Field from table.py lines 97-100: a column name optionally qualified by a
table. -/
structure Fld where
  name : String
  table : Option Table

/-- A double quote character as a string, for building the quoted SQL
identifiers the source produces with f-strings. -/
def dq : String := Char.toString (Char.ofNat 34)

/-- A single quote character as a string (used by the literal-inlining branch
of Function.compile). -/
def squot : String := Char.toString (Char.ofNat 39)

/-- Fld.__str__ (table.py lines 102-106): `"table_or_alias"."column"` when
qualified, `"column"` otherwise. -/
def Fld.str (f : Fld) : String :=
  match f.table with
  | some t =>
      let tName := match t.alias? with
        | some a => a
        | none => t.name
      dq ++ tName ++ dq ++ "." ++ dq ++ f.name ++ dq
  | none => dq ++ f.name ++ dq

/-- Table.__tn__ (table.py lines 196-199). -/
def Table.tn (t : Table) : String :=
  match t.schema with
  | some s => dq ++ s ++ dq ++ "." ++ dq ++ t.name ++ dq
  | none => dq ++ t.name ++ dq

/-- The right-hand side of InCondition (table.py line 52): either a literal
list/tuple of values, or any other single value (the else branch of
InCondition.compile, which binds it as one parameter). -/
inductive InRhs where
  | list (vs : List Value)
  | single (v : Value)
deriving DecidableEq

mutual
/-- The condition AST of table.py.  One constructor per class:
`comparison` is Condition (lines 2-14), `boolean` is BooleanCondition
(lines 34-44), `inCondition` is InCondition (lines 50-62), `between` is
BetweenCondition (lines 79-88). -/
inductive Condition where
  | comparison (left : Fld) (operator : String) (right : Value)
  | boolean (left : CondSide) (operator : String) (right : CondSide)
  | inCondition (left : Fld) (operator : String) (right : InRhs)
  | between (field : Fld) (lower upper : Value)

/-- A side of a BooleanCondition.  BooleanCondition.compile (table.py
lines 40-44) dispatches on `hasattr(side, "compile")`: a compilable node is
compiled, anything else is rendered with `str(...)` and contributes no
parameters; `raw` carries that rendered string. -/
inductive CondSide where
  | compilable (c : Condition)
  | raw (s : String)
end

/-- Fld.__eq__ (table.py lines 111-112): always builds
`Condition(self, "=", other)`, with no special case for None. -/
def Fld.eq (f : Fld) (other : Value) : Condition :=
  .comparison f "=" other

/-- Fld.__ne__ (table.py lines 114-115): always builds
`Condition(self, "<>", other)`, with no special case for None. -/
def Fld.ne (f : Fld) (other : Value) : Condition :=
  .comparison f "<>" other

/-- Fld.IN (table.py lines 149-152). -/
def Fld.IN (f : Fld) (other : InRhs) : Condition :=
  .inCondition f "IN" other

/-- Fld.NOT_IN (table.py lines 154-155). -/
def Fld.NOT_IN (f : Fld) (other : InRhs) : Condition :=
  .inCondition f "NOT IN" other

/-- Fld.BETWEEN (table.py lines 163-164). -/
def Fld.BETWEEN (f : Fld) (lower upper : Value) : Condition :=
  .between f lower upper

/-- Fld.IS_NULL (table.py lines 166-167): returns a plain string, not a
Condition. -/
def Fld.IS_NULL (f : Fld) : String :=
  f.str ++ " IS NULL"

/-- Fld.IS_NOT_NULL (table.py lines 169-170). -/
def Fld.IS_NOT_NULL (f : Fld) : String :=
  f.str ++ " IS NOT NULL"

/-- SQLCompiler.next_placeholder together with the per-dialect
parameter_placeholder properties (compiler.py lines 23-25 and 255-269).
The Postgres property first increments `_placeholder_count`, then returns
`"$" + count`; MySQL and SQLite return the fixed tokens `%s` and `?` and
leave the counter alone.  The returned token is also appended to the ghost
trace. -/
def nextPlaceholder (d : Dialect) (st : CompState) : String × CompState :=
  match d with
  | .postgres =>
      let n := st.count + 1
      let p := "$" ++ toString n
      (p, ⟨n, st.trace ++ [p]⟩)
  | .mysql => ("%s", ⟨st.count, st.trace ++ ["%s"]⟩)
  | .sqlite => ("?", ⟨st.count, st.trace ++ ["?"]⟩)

/-- The placeholder token a dialect hands out when its counter stands at
`n` (specification-side description of `nextPlaceholder`). -/
def phAt (d : Dialect) (n : Nat) : String :=
  match d with
  | .postgres => "$" ++ toString (n + 1)
  | .mysql => "%s"
  | .sqlite => "?"

/-- The `k` placeholder tokens emitted consecutively starting from counter
value `c`. -/
def phList (d : Dialect) (c k : Nat) : List String :=
  (List.range k).map (fun i => phAt d (c + i))

/-- Counter value after emitting `k` placeholders from counter value `c`:
only the Postgres dialect advances the counter. -/
def countAfter (d : Dialect) (c k : Nat) : Nat :=
  match d with
  | .postgres => c + k
  | .mysql => c
  | .sqlite => c

theorem countAfter_add (d : Dialect) (c k₁ k₂ : Nat) :
    countAfter d (countAfter d c k₁) k₂ = countAfter d c (k₁ + k₂) := by
  cases d <;> simp [countAfter, Nat.add_assoc]

theorem phList_zero (d : Dialect) (c : Nat) : phList d c 0 = [] := by
  simp [phList]

theorem phList_one (d : Dialect) (c : Nat) : phList d c 1 = [phAt d c] := by
  simp [phList, List.range_succ]

theorem phList_append (d : Dialect) (c k₁ k₂ : Nat) :
    phList d c k₁ ++ phList d (countAfter d c k₁) k₂ = phList d c (k₁ + k₂) := by
  simp only [phList, List.range_add, List.map_append, List.map_map]
  congr 1
  apply List.map_congr_left
  intro i hi
  cases d <;> simp [countAfter, phAt, Nat.add_assoc]

theorem nextPlaceholder_run (d : Dialect) (c : Nat) (t : List String) :
    nextPlaceholder d ⟨c, t⟩ = (phAt d c, ⟨countAfter d c 1, t ++ phList d c 1⟩) := by
  cases d <;> simp [nextPlaceholder, phAt, countAfter, phList_one]

/-- A stateful compile step `f` satisfies `Emits d f` when, run from counter
`c`, its output and its number of placeholder emissions depend only on `c`,
the counter advances accordingly, and the emitted tokens are exactly the
consecutive dialect placeholders from `c`.  This is the invariant behind the
numbering claims in spec sections 4.1 and 8. -/
def Emits {α : Type} (d : Dialect) (f : CompState → α × CompState) : Prop :=
  ∀ c : Nat, ∃ (a : α) (k : Nat), ∀ t : List String,
    f ⟨c, t⟩ = (a, ⟨countAfter d c k, t ++ phList d c k⟩)

theorem emits_pure {α : Type} (d : Dialect) (a : α) :
    Emits d (fun st => (a, st)) := by
  intro c
  exact ⟨a, 0, fun t => by simp [countAfter, phList_zero]; cases d <;> simp [countAfter]⟩

theorem emits_next (d : Dialect) : Emits d (nextPlaceholder d) := by
  intro c
  exact ⟨phAt d c, 1, fun t => nextPlaceholder_run d c t⟩

/-- The loop of InCondition.compile over a literal list (table.py
lines 53-57): one placeholder per element, the element appended to params. -/
def inPlaceholders (d : Dialect) : List Value → CompState → (List String × List Value) × CompState
  | [], st => (([], []), st)
  | v :: vs, st =>
      let (p, st₁) := nextPlaceholder d st
      let ((ps, params), st₂) := inPlaceholders d vs st₁
      ((p :: ps, v :: params), st₂)

theorem countAfter_zero (d : Dialect) (c : Nat) : countAfter d c 0 = c := by
  cases d <;> rfl

theorem phList_cons (d : Dialect) (c k : Nat) :
    phList d c (k + 1) = phAt d c :: phList d (countAfter d c 1) k := by
  have h := phList_append d c 1 k
  rw [phList_one] at h
  rw [Nat.add_comm k 1, ← h]
  rfl

theorem inPlaceholders_run (d : Dialect) :
    ∀ (vs : List Value) (c : Nat) (t : List String),
    inPlaceholders d vs ⟨c, t⟩
      = ((phList d c vs.length, vs),
         ⟨countAfter d c vs.length, t ++ phList d c vs.length⟩)
  | [], c, t => by simp [inPlaceholders, phList_zero, countAfter_zero]
  | v :: vs, c, t => by
      have ih := inPlaceholders_run d vs (countAfter d c 1) (t ++ phList d c 1)
      simp only [inPlaceholders, nextPlaceholder_run, ih, List.length_cons]
      rw [countAfter_add, List.append_assoc, phList_append,
        Nat.add_comm 1 vs.length, phList_cons]

mutual
/-- Condition.compile (table.py lines 8-14): one placeholder, right-hand
value as the single parameter — for every right-hand value, None included;
BooleanCondition.compile (lines 40-44); InCondition.compile (lines 51-62);
BetweenCondition.compile (lines 85-88). -/
def Condition.compile (d : Dialect) : Condition → CompState → (String × List Value) × CompState
  | .comparison left op right, st =>
      let (p, st₁) := nextPlaceholder d st
      ((left.str ++ " " ++ op ++ " " ++ p, [right]), st₁)
  | .boolean l op r, st =>
      let ((lsql, lparams), st₁) := CondSide.compile d l st
      let ((rsql, rparams), st₂) := CondSide.compile d r st₁
      (("(" ++ lsql ++ ") " ++ op ++ " (" ++ rsql ++ ")", lparams ++ rparams), st₂)
  | .inCondition left op (.list vs), st =>
      let ((ps, params), st₁) := inPlaceholders d vs st
      ((left.str ++ " " ++ op ++ " (" ++ String.intercalate ", " ps ++ ")", params), st₁)
  | .inCondition left op (.single v), st =>
      let (p, st₁) := nextPlaceholder d st
      ((left.str ++ " " ++ op ++ " (" ++ p ++ ")", [v]), st₁)
  | .between f lo hi, st =>
      let (p₁, st₁) := nextPlaceholder d st
      let (p₂, st₂) := nextPlaceholder d st₁
      ((f.str ++ " BETWEEN " ++ p₁ ++ " AND " ++ p₂, [lo, hi]), st₂)

/-- Side dispatch of BooleanCondition.compile (table.py lines 41-42). -/
def CondSide.compile (d : Dialect) : CondSide → CompState → (String × List Value) × CompState
  | .compilable c, st => Condition.compile d c st
  | .raw s, st => ((s, []), st)
end

mutual
theorem conditionCompile_emits (d : Dialect) :
    ∀ cond : Condition, Emits d (Condition.compile d cond)
  | .comparison left op right => by
      intro c
      refine ⟨(left.str ++ " " ++ op ++ " " ++ phAt d c, [right]), 1, fun t => ?_⟩
      simp only [Condition.compile, nextPlaceholder_run]
  | .boolean l op r => by
      intro c
      obtain ⟨⟨ls, lp⟩, k₁, h₁⟩ := condSideCompile_emits d l c
      obtain ⟨⟨rs, rp⟩, k₂, h₂⟩ := condSideCompile_emits d r (countAfter d c k₁)
      refine ⟨("(" ++ ls ++ ") " ++ op ++ " (" ++ rs ++ ")", lp ++ rp), k₁ + k₂, fun t => ?_⟩
      simp only [Condition.compile, h₁, h₂]
      rw [countAfter_add, List.append_assoc, phList_append]
  | .inCondition left op (.list vs) => by
      intro c
      refine ⟨(left.str ++ " " ++ op ++ " ("
                ++ String.intercalate ", " (phList d c vs.length) ++ ")", vs),
              vs.length, fun t => ?_⟩
      simp only [Condition.compile, inPlaceholders_run]
  | .inCondition left op (.single v) => by
      intro c
      refine ⟨(left.str ++ " " ++ op ++ " (" ++ phAt d c ++ ")", [v]), 1, fun t => ?_⟩
      simp only [Condition.compile, nextPlaceholder_run]
  | .between f lo hi => by
      intro c
      refine ⟨(f.str ++ " BETWEEN " ++ phAt d c ++ " AND "
                ++ phAt d (countAfter d c 1), [lo, hi]), 2, fun t => ?_⟩
      simp only [Condition.compile, nextPlaceholder_run]
      rw [countAfter_add, List.append_assoc, phList_append]

theorem condSideCompile_emits (d : Dialect) :
    ∀ side : CondSide, Emits d (CondSide.compile d side)
  | .compilable c => by
      intro cnt
      obtain ⟨a, k, h⟩ := conditionCompile_emits d c cnt
      exact ⟨a, k, fun t => by rw [CondSide.compile, h t]⟩
  | .raw s => by
      intro cnt
      refine ⟨(s, []), 0, fun t => ?_⟩
      simp [CondSide.compile, countAfter_zero, phList_zero]
end

/-- A Python value that is neither a string, nor compilable, nor field-like:
the values that reach the final else branch of Function.compile
(functions.py lines 41-44). -/
inductive Atom where
  | int (i : Int)
  | bool (b : Bool)
  | null
deriving DecidableEq

/-- The parameter value an Atom binds to. -/
def Atom.toValue : Atom → Value
  | .int i => .int i
  | .bool b => .bool b
  | .null => .null

/-- One argument of Function (functions.py lines 22-44).  The constructors
mirror the four dispatch branches of Function.compile in source order:
`hasattr(arg, "compile")` (carried here as a Condition node),
`hasattr(arg, "table") or hasattr(arg, "resolve")` (a Field), `isinstance(arg,
str)`, and the final else branch. -/
inductive FArg where
  | compilable (c : Condition)
  | fieldLike (f : Fld)
  | str (s : String)
  | atom (a : Atom)

/-- Function from functions.py lines 4-16: a name, the argument tuple and an
optional alias set by AS. -/
structure Func where
  name : String
  args : List FArg
  alias? : Option String

/-- Function.AS (functions.py lines 14-16). -/
def Func.AS (f : Func) (a : String) : Func :=
  { f with alias? := some a }

/-- The string-literal escaping of Function.compile (functions.py
lines 30-40): single quotes are doubled, and when the compiler is the
MySQLCompiler backslashes are doubled afterwards. -/
def escapeLiteral (d : Dialect) (s : String) : String :=
  let safe := s.replace squot (squot ++ squot)
  match d with
  | .mysql => safe.replace "\\" "\\\\"
  | _ => safe

/-- The argument loop of Function.compile (functions.py lines 22-44):
compilable arguments are compiled (their params collected), field-like
arguments are rendered with str(), string arguments are inlined as escaped
quoted literals with no parameter, and everything else becomes one
placeholder with the value appended to params. -/
def fargsCompile (d : Dialect) : List FArg → CompState → (List String × List Value) × CompState
  | [], st => (([], []), st)
  | .compilable c :: rest, st =>
      let ((sql, p), st₁) := Condition.compile d c st
      let ((ss, ps), st₂) := fargsCompile d rest st₁
      ((sql :: ss, p ++ ps), st₂)
  | .fieldLike f :: rest, st =>
      let ((ss, ps), st₁) := fargsCompile d rest st
      ((f.str :: ss, ps), st₁)
  | .str s :: rest, st =>
      let ((ss, ps), st₁) := fargsCompile d rest st
      (((squot ++ escapeLiteral d s ++ squot) :: ss, ps), st₁)
  | .atom a :: rest, st =>
      let (p, st₁) := nextPlaceholder d st
      let ((ss, ps), st₂) := fargsCompile d rest st₁
      ((p :: ss, a.toValue :: ps), st₂)

/-- Final assembly of Function.compile (functions.py lines 46-51). -/
def Func.compile (d : Dialect) (f : Func) (st : CompState) : (String × List Value) × CompState :=
  let ((argStrs, params), st₁) := fargsCompile d f.args st
  let sql := f.name ++ "(" ++ String.intercalate ", " argStrs ++ ")"
  let sql := match f.alias? with
    | some a => sql ++ " AS " ++ a
    | none => sql
  ((sql, params), st₁)

/-- What the claim about Function.compile requires of the rendering of one
argument: field-like arguments render as their str(), string arguments as
the escaped quoted literal, non-string atoms as a dialect placeholder token;
nothing is required of compilable arguments. -/
def fargRenderOk (d : Dialect) : FArg → String → Prop
  | .compilable _, _ => True
  | .fieldLike f, r => r = f.str
  | .str s, r => r = squot ++ escapeLiteral d s ++ squot
  | .atom _, r => ∃ n, r = phAt d n

/-- What the claim requires of one argument's contribution to the parameter
list: strings and field-like arguments contribute nothing, an atom
contributes exactly its own value; nothing is required of compilable
arguments. -/
def fargContrib : FArg → List Value → Prop
  | .compilable _, _ => True
  | .fieldLike _, l => l = []
  | .str _, l => l = []
  | .atom a, l => l = [a.toValue]

theorem fargsCompile_run (d : Dialect) :
    ∀ (args : List FArg) (c : Nat),
    ∃ (rends : List String) (contribs : List (List Value)) (k : Nat),
      List.Forall₂ (fargRenderOk d) args rends ∧
      List.Forall₂ fargContrib args contribs ∧
      ∀ t, fargsCompile d args ⟨c, t⟩
        = ((rends, contribs.flatten), ⟨countAfter d c k, t ++ phList d c k⟩)
  | [], c => by
      refine ⟨[], [], 0, .nil, .nil, fun t => ?_⟩
      simp [fargsCompile, countAfter_zero, phList_zero]
  | .compilable cc :: rest, c => by
      obtain ⟨⟨sql, p⟩, k₁, h₁⟩ := conditionCompile_emits d cc c
      obtain ⟨rends, contribs, k₂, hr, hc, hrun⟩ :=
        fargsCompile_run d rest (countAfter d c k₁)
      refine ⟨sql :: rends, p :: contribs, k₁ + k₂,
        .cons trivial hr, .cons trivial hc, fun t => ?_⟩
      simp only [fargsCompile, h₁, hrun, List.flatten_cons]
      rw [countAfter_add, List.append_assoc, phList_append]
  | .fieldLike f :: rest, c => by
      obtain ⟨rends, contribs, k, hr, hc, hrun⟩ := fargsCompile_run d rest c
      refine ⟨f.str :: rends, [] :: contribs, k,
        .cons rfl hr, .cons rfl hc, fun t => ?_⟩
      simp only [fargsCompile, hrun, List.flatten_cons, List.nil_append]
  | .str s :: rest, c => by
      obtain ⟨rends, contribs, k, hr, hc, hrun⟩ := fargsCompile_run d rest c
      refine ⟨(squot ++ escapeLiteral d s ++ squot) :: rends, [] :: contribs, k,
        .cons rfl hr, .cons rfl hc, fun t => ?_⟩
      simp only [fargsCompile, hrun, List.flatten_cons, List.nil_append]
  | .atom a :: rest, c => by
      obtain ⟨rends, contribs, k, hr, hc, hrun⟩ :=
        fargsCompile_run d rest (countAfter d c 1)
      refine ⟨phAt d c :: rends, [a.toValue] :: contribs, 1 + k,
        .cons ⟨c, rfl⟩ hr, .cons rfl hc, fun t => ?_⟩
      simp only [fargsCompile, nextPlaceholder_run, hrun, List.flatten_cons,
        List.singleton_append]
      rw [countAfter_add, List.append_assoc, phList_append]

theorem funcCompile_emits (d : Dialect) (f : Func) : Emits d (Func.compile d f) := by
  intro c
  obtain ⟨rends, contribs, k, _, _, hrun⟩ := fargsCompile_run d f.args c
  refine ⟨((match f.alias? with
    | some a => f.name ++ "(" ++ String.intercalate ", " rends ++ ")" ++ " AS " ++ a
    | none => f.name ++ "(" ++ String.intercalate ", " rends ++ ")"), contribs.flatten),
    k, fun t => ?_⟩
  simp only [Func.compile, hrun]

/-- WindowSpec from window.py lines 10-28: PARTITION BY columns, ORDER BY
(column, direction) pairs, optional frame string.  Columns are carried as
their already-rendered str() forms (WindowSpec.compile applies str() to each
entry; the OrderedField unwrapping of lines 90-94 happens before the join and
is likewise a str() rendering). -/
structure WindowSpec where
  partition_by : List String
  order_by : List (String × String)
  frame : Option String

/-- WindowSpec.ROWS_BETWEEN (window.py lines 54-63). -/
def WindowSpec.ROWS_BETWEEN (w : WindowSpec) (start stop : String) : WindowSpec :=
  { w with frame := some ("ROWS BETWEEN " ++ start ++ " AND " ++ stop) }

/-- WindowSpec.RANGE_BETWEEN (window.py lines 65-74). -/
def WindowSpec.RANGE_BETWEEN (w : WindowSpec) (start stop : String) : WindowSpec :=
  { w with frame := some ("RANGE BETWEEN " ++ start ++ " AND " ++ stop) }

/-- WindowSpec.compile (window.py lines 76-106): PARTITION BY, then ORDER BY,
then the frame, each omitted when empty; params is always the empty list. -/
def WindowSpec.compile (w : WindowSpec) : String × List Value :=
  let parts : List String :=
    (if w.partition_by.isEmpty then []
     else ["PARTITION BY " ++ String.intercalate ", " w.partition_by])
    ++ (if w.order_by.isEmpty then []
        else ["ORDER BY " ++ String.intercalate ", "
                (w.order_by.map (fun p => p.1 ++ " " ++ p.2))])
    ++ (match w.frame with
        | some fr => [fr]
        | none => [])
  (String.intercalate " " parts, [])

/-- The OVER clause payload of WindowFunction (window.py lines 116-127):
either a named window reference (a string) or an inline WindowSpec. -/
inductive OverArg where
  | winName (s : String)
  | spec (w : WindowSpec)

/-- One argument of WindowFunction.compile (window.py lines 183-191), one
constructor per dispatch branch: compilable (a Condition or a Function),
None (rendered as the literal NULL), and everything else rendered through
str() and carried here as that string. -/
inductive WArg where
  | compilable (c : Condition)
  | func (f : Func)
  | nul
  | raw (s : String)

/-- The FILTER payload (window.py lines 197-207): compiled when it has a
compile method, rendered through str() otherwise. -/
inductive FilterItem where
  | compilable (c : Condition)
  | func (f : Func)
  | raw (s : String)

/-- WindowFunction from window.py lines 109-130. -/
structure WinFn where
  name : String
  args : List WArg
  over : Option OverArg
  alias? : Option String
  filter : Option FilterItem
  distinct : Bool

/-- WindowFunction.DISTINCT (window.py lines 132-138). -/
def WinFn.DISTINCT (w : WinFn) : WinFn :=
  { w with distinct := true }

/-- WindowFunction.FILTER (window.py lines 140-145). -/
def WinFn.FILTER (w : WinFn) (condition : FilterItem) : WinFn :=
  { w with filter := some condition }

/-- WindowFunction.OVER (window.py lines 148-154): with no argument the over
slot becomes a fresh empty WindowSpec, so an explicit OVER() is
distinguishable from never calling OVER. -/
def WinFn.OVER (w : WinFn) (spec : Option OverArg) : WinFn :=
  { w with over := some (spec.getD (.spec ⟨[], [], none⟩)) }

/-- WindowFunction.AS (window.py lines 156-167). -/
def WinFn.AS (w : WinFn) (a : String) : WinFn :=
  { w with alias? := some a }

/-- The argument loop of WindowFunction.compile (window.py lines 183-191). -/
def wargsCompile (d : Dialect) : List WArg → CompState → (List String × List Value) × CompState
  | [], st => (([], []), st)
  | .compilable c :: rest, st =>
      let ((sql, p), st₁) := Condition.compile d c st
      let ((ss, ps), st₂) := wargsCompile d rest st₁
      ((sql :: ss, p ++ ps), st₂)
  | .func f :: rest, st =>
      let ((sql, p), st₁) := Func.compile d f st
      let ((ss, ps), st₂) := wargsCompile d rest st₁
      ((sql :: ss, p ++ ps), st₂)
  | .nul :: rest, st =>
      let ((ss, ps), st₁) := wargsCompile d rest st
      (("NULL" :: ss, ps), st₁)
  | .raw s :: rest, st =>
      let ((ss, ps), st₁) := wargsCompile d rest st
      ((s :: ss, ps), st₁)

/-- The function-call part of WindowFunction.compile (window.py
lines 178-194): with arguments, `name(DISTINCT? arg, ...)` and the collected
argument parameters; with no arguments, `name()` and the DISTINCT flag is
never rendered. -/
def winFuncCall (d : Dialect) (w : WinFn) (st : CompState) : (String × List Value) × CompState :=
  if w.args.isEmpty then ((w.name ++ "()", []), st)
  else
    let distinctStr := if w.distinct then "DISTINCT " else ""
    let ((argStrs, ps), st₁) := wargsCompile d w.args st
    ((w.name ++ "(" ++ distinctStr ++ String.intercalate ", " argStrs ++ ")", ps), st₁)

/-- The FILTER clause part of WindowFunction.compile (window.py
lines 196-207). -/
def winFilterClause (d : Dialect) (filter : Option FilterItem) (st : CompState) :
    (String × List Value) × CompState :=
  match filter with
  | none => (("", []), st)
  | some (.compilable c) =>
      let ((fsql, fparams), st₁) := Condition.compile d c st
      ((" FILTER (WHERE " ++ fsql ++ ")", fparams), st₁)
  | some (.func f) =>
      let ((fsql, fparams), st₁) := Func.compile d f st
      ((" FILTER (WHERE " ++ fsql ++ ")", fparams), st₁)
  | some (.raw s) => ((" FILTER (WHERE " ++ s ++ ")", []), st)

/-- The OVER clause part of WindowFunction.compile (window.py
lines 209-222): absent over renders nothing, a name renders `OVER name`, an
inline spec renders `OVER (spec)` — or `OVER ()` when the spec compiles to
the empty string.  WindowSpec.compile never emits placeholders, so this part
is pure. -/
def winOverClause (over : Option OverArg) : String × List Value :=
  match over with
  | none => ("", [])
  | some (.winName s) => (" OVER " ++ s, [])
  | some (.spec ws) =>
      let (specSql, specParams) := ws.compile
      (if specSql = "" then " OVER ()" else " OVER (" ++ specSql ++ ")", specParams)

/-- WindowFunction.compile (window.py lines 169-230).  Note the assembly
order on line 224: `func_call + over_clause + filter_clause`, i.e. the OVER
clause is emitted before the FILTER clause, although the FILTER parameters
were collected first (lines 196-207 run before lines 209-222). -/
def WinFn.compile (d : Dialect) (w : WinFn) (st : CompState) : (String × List Value) × CompState :=
  let ((funcCall, params₀), st₁) := winFuncCall d w st
  let ((filterClause, params₁), st₂) := winFilterClause d w.filter st₁
  let (overClause, params₂) := winOverClause w.over
  let sql := funcCall ++ overClause ++ filterClause
  let sql := match w.alias? with
    | some a => sql ++ " AS " ++ a
    | none => sql
  ((sql, params₀ ++ params₁ ++ params₂), st₂)

theorem wargsCompile_emits (d : Dialect) :
    ∀ args : List WArg, Emits d (wargsCompile d args)
  | [] => by
      intro c
      refine ⟨([], []), 0, fun t => ?_⟩
      simp [wargsCompile, countAfter_zero, phList_zero]
  | .compilable cc :: rest => by
      intro c
      obtain ⟨⟨sql, p⟩, k₁, h₁⟩ := conditionCompile_emits d cc c
      obtain ⟨⟨ss, ps⟩, k₂, h₂⟩ := wargsCompile_emits d rest (countAfter d c k₁)
      refine ⟨(sql :: ss, p ++ ps), k₁ + k₂, fun t => ?_⟩
      simp only [wargsCompile, h₁, h₂]
      rw [countAfter_add, List.append_assoc, phList_append]
  | .func f :: rest => by
      intro c
      obtain ⟨⟨sql, p⟩, k₁, h₁⟩ := funcCompile_emits d f c
      obtain ⟨⟨ss, ps⟩, k₂, h₂⟩ := wargsCompile_emits d rest (countAfter d c k₁)
      refine ⟨(sql :: ss, p ++ ps), k₁ + k₂, fun t => ?_⟩
      simp only [wargsCompile, h₁, h₂]
      rw [countAfter_add, List.append_assoc, phList_append]
  | .nul :: rest => by
      intro c
      obtain ⟨⟨ss, ps⟩, k, h⟩ := wargsCompile_emits d rest c
      refine ⟨("NULL" :: ss, ps), k, fun t => ?_⟩
      simp only [wargsCompile, h]
  | .raw s :: rest => by
      intro c
      obtain ⟨⟨ss, ps⟩, k, h⟩ := wargsCompile_emits d rest c
      refine ⟨(s :: ss, ps), k, fun t => ?_⟩
      simp only [wargsCompile, h]

theorem winFuncCall_emits (d : Dialect) (w : WinFn) : Emits d (winFuncCall d w) := by
  intro c
  by_cases hargs : w.args.isEmpty
  · refine ⟨(w.name ++ "()", []), 0, fun t => ?_⟩
    simp [winFuncCall, hargs, countAfter_zero, phList_zero]
  · obtain ⟨⟨ss, ps⟩, k, h⟩ := wargsCompile_emits d w.args c
    refine ⟨(w.name ++ "(" ++ (if w.distinct then "DISTINCT " else "")
      ++ String.intercalate ", " ss ++ ")", ps), k, fun t => ?_⟩
    simp only [winFuncCall, h]
    simp [hargs]

theorem winFilterClause_emits (d : Dialect) (filter : Option FilterItem) :
    Emits d (winFilterClause d filter) := by
  intro c
  match filter with
  | none =>
      refine ⟨("", []), 0, fun t => ?_⟩
      simp [winFilterClause, countAfter_zero, phList_zero]
  | some (.compilable cc) =>
      obtain ⟨⟨sql, p⟩, k, h⟩ := conditionCompile_emits d cc c
      refine ⟨(" FILTER (WHERE " ++ sql ++ ")", p), k, fun t => ?_⟩
      simp only [winFilterClause, h]
  | some (.func f) =>
      obtain ⟨⟨sql, p⟩, k, h⟩ := funcCompile_emits d f c
      refine ⟨(" FILTER (WHERE " ++ sql ++ ")", p), k, fun t => ?_⟩
      simp only [winFilterClause, h]
  | some (.raw s) =>
      refine ⟨(" FILTER (WHERE " ++ s ++ ")", []), 0, fun t => ?_⟩
      simp [winFilterClause, countAfter_zero, phList_zero]

theorem winfnCompile_emits (d : Dialect) (w : WinFn) : Emits d (WinFn.compile d w) := by
  intro c
  obtain ⟨⟨fc, p₀⟩, k₀, h₀⟩ := winFuncCall_emits d w c
  obtain ⟨⟨flt, p₁⟩, k₁, h₁⟩ := winFilterClause_emits d w.filter (countAfter d c k₀)
  refine ⟨((match w.alias? with
    | some a => fc ++ (winOverClause w.over).1 ++ flt ++ " AS " ++ a
    | none => fc ++ (winOverClause w.over).1 ++ flt),
    p₀ ++ p₁ ++ (winOverClause w.over).2), k₀ + k₁, fun t => ?_⟩
  simp only [WinFn.compile, h₀, h₁]
  rcases hov : winOverClause w.over with ⟨o₁, o₂⟩
  simp only [hov]
  rw [countAfter_add, List.append_assoc t, phList_append]

/-- The statement types the builder assigns (state.py line 43 and
query.py lines 427, 435, 447, 513, 661-663, 753). -/
inductive StmtType where
  | SELECT
  | INSERT
  | UPDATE
  | DELETE
  | BEGIN
  | COMMIT
deriving DecidableEq

/-- An entry of the selects / wheres / updates lists: either a string or a
node with a compile method.  The compiler dispatches on
`hasattr(item, "compile")` (compiler.py lines 98 and 118 and 213). -/
inductive Node where
  | compilable (c : Condition)
  | func (f : Func)
  | winfn (w : WinFn)
  | raw (s : String)

/-- QueryState from state.py lines 4-59, minus the chain (split into the
QueryState record below so that the chain can nest).  Two fields are
modelled from the spec: section 3 lists `insert_values` and
`window_definitions: {name: WindowSpec}` among the QueryState fields and
query.py lines 768-788 and 852-864 together with compiler.py lines 151-157
and 181-190 dereference them, but the dataclass in state.py omits both
declarations, so the Python code raises AttributeError wherever they are
touched.  CTE payloads are carried as their rendered string: compiler.py
line 64 inlines a string payload as is and renders a Query payload through
that query's own print(), outside this compiler's counter and parameter
list. -/
structure StmtState where
  ctes : List (String × String)
  selects : List Node
  distinct : Bool
  from_sources : List String
  joins : List String
  wheres : List Node
  groups : List String
  orders : List String
  limit : Option Int
  offset : Option Int
  statement_type : StmtType
  insert_table : Option String
  insert_columns : List String
  update_table : Option String
  delete_table : Option String
  values : List String
  updates : List Node
  returning : List String
  aliases : List (String × String)
  window_definitions : List (String × WindowSpec)
  insert_values : List (List Value)

/-- The full QueryState: the statement fields plus `chain`, the list of
prior closed statements (state.py line 15).  In the source the chain holds
QueryState objects, but the compiler only ever reads their statement fields
(`_compile_single` never touches a chain member's own chain), so chain
members are carried here as bare StmtState records. -/
structure QueryState extends StmtState where
  chain : List StmtState

/-- The dataclass defaults of state.py lines 11-58: everything empty,
statement_type SELECT, no limit or offset. -/
def emptyStmt : StmtState :=
  ⟨[], [], false, [], [], [], [], [], none, none, .SELECT,
   none, [], none, none, [], [], [], [], [], []⟩

/-- Python renders f-string interpolation of None as the text `None`
(reached by compiler.py lines 176 and 208 when no table was set). -/
def pyOpt : Option String → String
  | some s => s
  | none => "None"

/-- The shared item loop of _compile_select line 117-124 and _compile_update
lines 211-218: compilable items are compiled and their parameters collected,
anything else is rendered through str(). -/
def selectItems (d : Dialect) : List Node → CompState → (List String × List Value) × CompState
  | [], st => (([], []), st)
  | .compilable c :: rest, st =>
      let ((sql, p), st₁) := Condition.compile d c st
      let ((ss, ps), st₂) := selectItems d rest st₁
      ((sql :: ss, p ++ ps), st₂)
  | .func f :: rest, st =>
      let ((sql, p), st₁) := Func.compile d f st
      let ((ss, ps), st₂) := selectItems d rest st₁
      ((sql :: ss, p ++ ps), st₂)
  | .winfn w :: rest, st =>
      let ((sql, p), st₁) := WinFn.compile d w st
      let ((ss, ps), st₂) := selectItems d rest st₁
      ((sql :: ss, p ++ ps), st₂)
  | .raw s :: rest, st =>
      let ((ss, ps), st₁) := selectItems d rest st
      ((s :: ss, ps), st₁)

/-- The item loop of _compile_conditions (compiler.py lines 89-107):
compilable conditions are compiled, plain strings are stripped and dropped
when blank. -/
def condItems (d : Dialect) : List Node → CompState → (List String × List Value) × CompState
  | [], st => (([], []), st)
  | .compilable c :: rest, st =>
      let ((sql, p), st₁) := Condition.compile d c st
      let ((ss, ps), st₂) := condItems d rest st₁
      ((sql :: ss, p ++ ps), st₂)
  | .func f :: rest, st =>
      let ((sql, p), st₁) := Func.compile d f st
      let ((ss, ps), st₂) := condItems d rest st₁
      ((sql :: ss, p ++ ps), st₂)
  | .winfn w :: rest, st =>
      let ((sql, p), st₁) := WinFn.compile d w st
      let ((ss, ps), st₂) := condItems d rest st₁
      ((sql :: ss, p ++ ps), st₂)
  | .raw s :: rest, st =>
      let ((ss, ps), st₁) := condItems d rest st
      (if s.trim = "" then (ss, ps) else (s.trim :: ss, ps), st₁)

/-- _compile_conditions (compiler.py lines 89-107): the items joined with
AND. -/
def compileConditions (d : Dialect) (conds : List Node) (st : CompState) :
    (String × List Value) × CompState :=
  let ((ss, ps), st₁) := condItems d conds st
  ((String.intercalate " AND " ss, ps), st₁)

/-- The named-window loop of _compile_select (compiler.py lines 151-157).
WindowSpec.compile is parameterless and placeholder-free, so this part is
pure. -/
def windowDefs : List (String × WindowSpec) → List String × List Value
  | [] => ([], [])
  | (n, spec) :: rest =>
      let (sql, ps) := spec.compile
      let (ss, pss) := windowDefs rest
      ((n ++ " AS (" ++ sql ++ ")") :: ss, ps ++ pss)

/-- The VALUES row loop of _compile_insert (compiler.py lines 183-190): one
placeholder per value, parameters in row-major order, each row wrapped in
parentheses. -/
def insertRows (d : Dialect) : List (List Value) → CompState → (List String × List Value) × CompState
  | [], st => (([], []), st)
  | row :: rest, st =>
      let ((ps, params), st₁) := inPlaceholders d row st
      let ((ss, params₂), st₂) := insertRows d rest st₁
      ((("(" ++ String.intercalate ", " ps ++ ")") :: ss, params ++ params₂), st₂)

/-- _compile_select (compiler.py lines 109-171).  The wheres block is
written without the enclosing `if state.wheres:` guard of line 139:
compiling an empty wheres list emits nothing, returns no parameters and the
empty string, which the `where_sql` truthiness test of line 141 then skips,
so the two forms agree on every state. -/
def compileSelect (d : Dialect) (s : StmtState) (st : CompState) :
    (String × List Value) × CompState :=
  let sel := if s.selects.isEmpty then [Node.raw "*"] else s.selects
  let ((selStrs, selParams), st₁) := selectItems d sel st
  let parts := ["SELECT " ++ String.intercalate ", " selStrs]
  let parts := parts ++
    (if s.from_sources.isEmpty then []
     else ["FROM " ++ String.intercalate ", " s.from_sources])
  let parts := parts ++ s.joins
  let ((whereSql, whereParams), st₂) := compileConditions d s.wheres st₁
  let (parts, params) :=
    if whereSql = "" then (parts, selParams)
    else (parts ++ ["WHERE " ++ whereSql], selParams ++ whereParams)
  let parts := parts ++
    (if s.groups.isEmpty then []
     else ["GROUP BY " ++ String.intercalate ", " s.groups])
  let (parts, params) :=
    if s.window_definitions.isEmpty then (parts, params)
    else
      let (wparts, wparams) := windowDefs s.window_definitions
      (parts ++ ["WINDOW " ++ String.intercalate ", " wparts], params ++ wparams)
  let parts := parts ++
    (if s.orders.isEmpty then []
     else ["ORDER BY " ++ String.intercalate ", " s.orders])
  let parts := parts ++
    (match s.limit with
     | some n => ["LIMIT " ++ toString n]
     | none => [])
  let parts := parts ++
    (match s.offset with
     | some n => ["OFFSET " ++ toString n]
     | none => [])
  let parts := parts ++
    (if s.returning.isEmpty then []
     else ["RETURNING " ++ String.intercalate ", " s.returning])
  ((String.intercalate " " parts, params), st₂)

/-- _compile_insert (compiler.py lines 173-203). -/
def compileInsert (d : Dialect) (s : StmtState) (st : CompState) :
    (String × List Value) × CompState :=
  let parts := ["INSERT INTO " ++ pyOpt s.insert_table]
  let parts := parts ++
    (if s.insert_columns.isEmpty then []
     else ["(" ++ String.intercalate ", " s.insert_columns ++ ")"])
  let ((parts, params), st₁) :=
    if ¬s.insert_values.isEmpty then
      let ((rows, ps), st₁) := insertRows d s.insert_values st
      ((parts ++ ["VALUES " ++ String.intercalate ", " rows], ps), st₁)
    else if ¬s.values.isEmpty then
      ((parts ++ ["VALUES " ++ String.intercalate ", " s.values], []), st)
    else if ¬s.selects.isEmpty then
      let ((sql, ps), st₁) := compileSelect d s st
      ((parts ++ [sql], ps), st₁)
    else ((parts, []), st)
  let parts := parts ++
    (if s.returning.isEmpty then []
     else ["RETURNING " ++ String.intercalate ", " s.returning])
  ((String.intercalate " " parts, params), st₁)

/-- _compile_update (compiler.py lines 205-231), its wheres block rewritten
like compileSelect's. -/
def compileUpdate (d : Dialect) (s : StmtState) (st : CompState) :
    (String × List Value) × CompState :=
  let parts := ["UPDATE " ++ pyOpt s.update_table]
  let ((parts, params), st₁) :=
    if s.updates.isEmpty then ((parts, []), st)
    else
      let ((us, ps), st₁) := selectItems d s.updates st
      ((parts ++ ["SET " ++ String.intercalate ", " us], ps), st₁)
  let ((whereSql, whereParams), st₂) := compileConditions d s.wheres st₁
  let (parts, params) :=
    if whereSql = "" then (parts, params)
    else (parts ++ ["WHERE " ++ whereSql], params ++ whereParams)
  let parts := parts ++
    (if s.returning.isEmpty then []
     else ["RETURNING " ++ String.intercalate ", " s.returning])
  ((String.intercalate " " parts, params), st₂)

/-- _compile_delete (compiler.py lines 233-253), its wheres block rewritten
like compileSelect's. -/
def compileDelete (d : Dialect) (s : StmtState) (st : CompState) :
    (String × List Value) × CompState :=
  let parts := ["DELETE FROM"]
  let parts := parts ++
    (match s.from_sources with
     | f :: _ => [f]
     | [] =>
        match s.delete_table with
        | some tb => [tb]
        | none => [])
  let ((whereSql, whereParams), st₁) := compileConditions d s.wheres st
  let (parts, params) :=
    if whereSql = "" then (parts, ([] : List Value))
    else (parts ++ ["WHERE " ++ whereSql], whereParams)
  let parts := parts ++
    (if s.returning.isEmpty then []
     else ["RETURNING " ++ String.intercalate ", " s.returning])
  ((String.intercalate " " parts, params), st₁)

/-- _compile_single (compiler.py lines 50-87): BEGIN and COMMIT return
fixed strings (COMMIT with a trailing semicolon), otherwise the WITH clause
is prefixed to the statement body and the non-empty parts joined with a
newline. -/
def compileSingle (d : Dialect) (s : StmtState) (st : CompState) :
    (String × List Value) × CompState :=
  match s.statement_type with
  | .BEGIN => (("BEGIN", []), st)
  | .COMMIT => (("COMMIT;", []), st)
  | ty =>
      let cteParts :=
        if s.ctes.isEmpty then []
        else ["WITH " ++ String.intercalate ", "
               (s.ctes.map (fun p => p.1 ++ " AS (" ++ p.2 ++ ")"))]
      let ((sql, params), st₁) :=
        match ty with
        | .SELECT => compileSelect d s st
        | .INSERT => compileInsert d s st
        | .UPDATE => compileUpdate d s st
        | .DELETE => compileDelete d s st
        | _ => (("", []), st)
      ((String.intercalate "\n" ((cteParts ++ [sql]).filter (fun p => p ≠ "")), params), st₁)

/-- The chain loop of SQLCompiler.compile (compiler.py lines 37-41). -/
def compileChain (d : Dialect) : List StmtState → CompState → (List String × List Value) × CompState
  | [], st => (([], []), st)
  | s :: rest, st =>
      let ((sql, ps), st₁) := compileSingle d s st
      let ((ss, pss), st₂) := compileChain d rest st₁
      ((sql :: ss, ps ++ pss), st₂)

/-- SQLCompiler.compile (compiler.py lines 27-48): reset the placeholder
counter, compile every chained prior state then the current one, join with
`"; "` and concatenate the parameters in order. -/
def QueryState.compile (d : Dialect) (q : QueryState) (st : CompState) :
    (String × List Value) × CompState :=
  let st₀ : CompState := ⟨0, st.trace⟩
  let ((ss, ps), st₁) := compileChain d q.chain st₀
  let ((sql, ps₂), st₂) := compileSingle d q.toStmtState st₁
  ((String.intercalate "; " (ss ++ [sql]), ps ++ ps₂), st₂)

theorem selectItems_emits (d : Dialect) :
    ∀ items : List Node, Emits d (selectItems d items)
  | [] => by
      intro c
      refine ⟨([], []), 0, fun t => ?_⟩
      simp [selectItems, countAfter_zero, phList_zero]
  | .compilable cc :: rest => by
      intro c
      obtain ⟨⟨sql, p⟩, k₁, h₁⟩ := conditionCompile_emits d cc c
      obtain ⟨⟨ss, ps⟩, k₂, h₂⟩ := selectItems_emits d rest (countAfter d c k₁)
      refine ⟨(sql :: ss, p ++ ps), k₁ + k₂, fun t => ?_⟩
      simp only [selectItems, h₁, h₂]
      rw [countAfter_add, List.append_assoc, phList_append]
  | .func f :: rest => by
      intro c
      obtain ⟨⟨sql, p⟩, k₁, h₁⟩ := funcCompile_emits d f c
      obtain ⟨⟨ss, ps⟩, k₂, h₂⟩ := selectItems_emits d rest (countAfter d c k₁)
      refine ⟨(sql :: ss, p ++ ps), k₁ + k₂, fun t => ?_⟩
      simp only [selectItems, h₁, h₂]
      rw [countAfter_add, List.append_assoc, phList_append]
  | .winfn w :: rest => by
      intro c
      obtain ⟨⟨sql, p⟩, k₁, h₁⟩ := winfnCompile_emits d w c
      obtain ⟨⟨ss, ps⟩, k₂, h₂⟩ := selectItems_emits d rest (countAfter d c k₁)
      refine ⟨(sql :: ss, p ++ ps), k₁ + k₂, fun t => ?_⟩
      simp only [selectItems, h₁, h₂]
      rw [countAfter_add, List.append_assoc, phList_append]
  | .raw s :: rest => by
      intro c
      obtain ⟨⟨ss, ps⟩, k, h⟩ := selectItems_emits d rest c
      refine ⟨(s :: ss, ps), k, fun t => ?_⟩
      simp only [selectItems, h]

theorem condItems_emits (d : Dialect) :
    ∀ items : List Node, Emits d (condItems d items)
  | [] => by
      intro c
      refine ⟨([], []), 0, fun t => ?_⟩
      simp [condItems, countAfter_zero, phList_zero]
  | .compilable cc :: rest => by
      intro c
      obtain ⟨⟨sql, p⟩, k₁, h₁⟩ := conditionCompile_emits d cc c
      obtain ⟨⟨ss, ps⟩, k₂, h₂⟩ := condItems_emits d rest (countAfter d c k₁)
      refine ⟨(sql :: ss, p ++ ps), k₁ + k₂, fun t => ?_⟩
      simp only [condItems, h₁, h₂]
      rw [countAfter_add, List.append_assoc, phList_append]
  | .func f :: rest => by
      intro c
      obtain ⟨⟨sql, p⟩, k₁, h₁⟩ := funcCompile_emits d f c
      obtain ⟨⟨ss, ps⟩, k₂, h₂⟩ := condItems_emits d rest (countAfter d c k₁)
      refine ⟨(sql :: ss, p ++ ps), k₁ + k₂, fun t => ?_⟩
      simp only [condItems, h₁, h₂]
      rw [countAfter_add, List.append_assoc, phList_append]
  | .winfn w :: rest => by
      intro c
      obtain ⟨⟨sql, p⟩, k₁, h₁⟩ := winfnCompile_emits d w c
      obtain ⟨⟨ss, ps⟩, k₂, h₂⟩ := condItems_emits d rest (countAfter d c k₁)
      refine ⟨(sql :: ss, p ++ ps), k₁ + k₂, fun t => ?_⟩
      simp only [condItems, h₁, h₂]
      rw [countAfter_add, List.append_assoc, phList_append]
  | .raw s :: rest => by
      intro c
      obtain ⟨⟨ss, ps⟩, k, h⟩ := condItems_emits d rest c
      refine ⟨(if s.trim = "" then (ss, ps) else (s.trim :: ss, ps)), k, fun t => ?_⟩
      simp only [condItems, h]

theorem compileConditions_emits (d : Dialect) (conds : List Node) :
    Emits d (compileConditions d conds) := by
  intro c
  obtain ⟨⟨ss, ps⟩, k, h⟩ := condItems_emits d conds c
  refine ⟨(String.intercalate " AND " ss, ps), k, fun t => ?_⟩
  simp only [compileConditions, h]

theorem insertRows_emits (d : Dialect) :
    ∀ rows : List (List Value), Emits d (insertRows d rows)
  | [] => by
      intro c
      refine ⟨([], []), 0, fun t => ?_⟩
      simp [insertRows, countAfter_zero, phList_zero]
  | row :: rest => by
      intro c
      obtain ⟨⟨ss, ps⟩, k₂, h₂⟩ := insertRows_emits d rest (countAfter d c row.length)
      refine ⟨(("(" ++ String.intercalate ", " (phList d c row.length) ++ ")") :: ss,
        row ++ ps), row.length + k₂, fun t => ?_⟩
      simp only [insertRows, inPlaceholders_run, h₂]
      rw [countAfter_add, List.append_assoc, phList_append]


theorem state_merge (d : Dialect) (c k₁ k₂ : Nat) (t : List String) :
    (⟨countAfter d (countAfter d c k₁) k₂,
      t ++ phList d c k₁ ++ phList d (countAfter d c k₁) k₂⟩ : CompState)
      = ⟨countAfter d c (k₁ + k₂), t ++ phList d c (k₁ + k₂)⟩ := by
  rw [countAfter_add, List.append_assoc, phList_append]

theorem compileSelect_emits (d : Dialect) (s : StmtState) :
    Emits d (compileSelect d s) := by
  intro c
  obtain ⟨⟨ss, ps⟩, k₁, h₁⟩ := selectItems_emits d
    (if s.selects.isEmpty then [Node.raw "*"] else s.selects) c
  obtain ⟨⟨ws, wps⟩, k₂, h₂⟩ := compileConditions_emits d s.wheres (countAfter d c k₁)
  rcases hwd : windowDefs s.window_definitions with ⟨wdp, wdps⟩
  by_cases hw : ws = "" <;> by_cases hwdef : s.window_definitions.isEmpty = true <;>
  · refine ⟨(compileSelect d s ⟨c, []⟩).1, k₁ + k₂, fun t => ?_⟩
    simp [compileSelect, h₁, h₂, hwd, hw, hwdef, state_merge]
    try exact ⟨countAfter_add d c k₁ k₂, phList_append d c k₁ k₂⟩

theorem compileInsert_emits (d : Dialect) (s : StmtState) :
    Emits d (compileInsert d s) := by
  intro c
  by_cases hiv : s.insert_values.isEmpty = true
  case neg =>
    obtain ⟨⟨rows, ps⟩, k, h⟩ := insertRows_emits d s.insert_values c
    refine ⟨(compileInsert d s ⟨c, []⟩).1, k, fun t => ?_⟩
    simp [compileInsert, hiv, h]
  case pos =>
    by_cases hv : s.values.isEmpty = true
    case neg =>
      refine ⟨(compileInsert d s ⟨c, []⟩).1, 0, fun t => ?_⟩
      simp [compileInsert, hiv, hv, countAfter_zero, phList_zero]
    case pos =>
      by_cases hs : s.selects.isEmpty = true
      case neg =>
        obtain ⟨⟨sql, ps⟩, k, h⟩ := compileSelect_emits d s c
        refine ⟨(compileInsert d s ⟨c, []⟩).1, k, fun t => ?_⟩
        simp [compileInsert, hiv, hv, hs, h]
      case pos =>
        refine ⟨(compileInsert d s ⟨c, []⟩).1, 0, fun t => ?_⟩
        simp [compileInsert, hiv, hv, hs, countAfter_zero, phList_zero]

theorem compileUpdate_emits (d : Dialect) (s : StmtState) :
    Emits d (compileUpdate d s) := by
  intro c
  by_cases hu : s.updates.isEmpty = true
  case pos =>
    obtain ⟨⟨ws, wps⟩, k₂, h₂⟩ := compileConditions_emits d s.wheres c
    by_cases hw : ws = "" <;>
    · refine ⟨(compileUpdate d s ⟨c, []⟩).1, k₂, fun t => ?_⟩
      simp [compileUpdate, hu, h₂, hw]
  case neg =>
    obtain ⟨⟨us, ups⟩, k₁, h₁⟩ := selectItems_emits d s.updates c
    obtain ⟨⟨ws, wps⟩, k₂, h₂⟩ := compileConditions_emits d s.wheres (countAfter d c k₁)
    by_cases hw : ws = "" <;>
    · refine ⟨(compileUpdate d s ⟨c, []⟩).1, k₁ + k₂, fun t => ?_⟩
      simp [compileUpdate, hu, h₁, h₂, hw, state_merge]
      try exact ⟨countAfter_add d c k₁ k₂, phList_append d c k₁ k₂⟩

theorem compileDelete_emits (d : Dialect) (s : StmtState) :
    Emits d (compileDelete d s) := by
  intro c
  obtain ⟨⟨ws, wps⟩, k, h⟩ := compileConditions_emits d s.wheres c
  by_cases hw : ws = "" <;>
  · refine ⟨(compileDelete d s ⟨c, []⟩).1, k, fun t => ?_⟩
    simp [compileDelete, h, hw]

theorem compileSingle_emits (d : Dialect) (s : StmtState) :
    Emits d (compileSingle d s) := by
  intro c
  cases hty : s.statement_type
  case BEGIN =>
    refine ⟨("BEGIN", []), 0, fun t => ?_⟩
    simp [compileSingle, hty, countAfter_zero, phList_zero]
  case COMMIT =>
    refine ⟨("COMMIT;", []), 0, fun t => ?_⟩
    simp [compileSingle, hty, countAfter_zero, phList_zero]
  case SELECT =>
    obtain ⟨⟨sql, ps⟩, k, h⟩ := compileSelect_emits d s c
    refine ⟨(compileSingle d s ⟨c, []⟩).1, k, fun t => ?_⟩
    simp [compileSingle, hty, h]
  case INSERT =>
    obtain ⟨⟨sql, ps⟩, k, h⟩ := compileInsert_emits d s c
    refine ⟨(compileSingle d s ⟨c, []⟩).1, k, fun t => ?_⟩
    simp [compileSingle, hty, h]
  case UPDATE =>
    obtain ⟨⟨sql, ps⟩, k, h⟩ := compileUpdate_emits d s c
    refine ⟨(compileSingle d s ⟨c, []⟩).1, k, fun t => ?_⟩
    simp [compileSingle, hty, h]
  case DELETE =>
    obtain ⟨⟨sql, ps⟩, k, h⟩ := compileDelete_emits d s c
    refine ⟨(compileSingle d s ⟨c, []⟩).1, k, fun t => ?_⟩
    simp [compileSingle, hty, h]

theorem compileChain_emits (d : Dialect) :
    ∀ chain : List StmtState, Emits d (compileChain d chain)
  | [] => by
      intro c
      refine ⟨([], []), 0, fun t => ?_⟩
      simp [compileChain, countAfter_zero, phList_zero]
  | s :: rest => by
      intro c
      obtain ⟨⟨sql, ps⟩, k₁, h₁⟩ := compileSingle_emits d s c
      obtain ⟨⟨ss, pss⟩, k₂, h₂⟩ := compileChain_emits d rest (countAfter d c k₁)
      refine ⟨(sql :: ss, ps ++ pss), k₁ + k₂, fun t => ?_⟩
      simp only [compileChain, h₁, h₂]
      rw [countAfter_add, List.append_assoc, phList_append]

/-- Master characterization of SQLCompiler.compile: because the method
resets the placeholder counter on entry (compiler.py line 32), the output
pair and the emission count depend only on the dialect and the state, never
on the compiler instance's incoming counter, and the ghost trace grows by
exactly the consecutive dialect placeholders numbered from a fresh
counter. -/
theorem QueryState.compile_run (d : Dialect) (q : QueryState) :
    ∃ (out : String × List Value) (k : Nat), ∀ (c : Nat) (t : List String),
      QueryState.compile d q ⟨c, t⟩
        = (out, ⟨countAfter d 0 k, t ++ phList d 0 k⟩) := by
  obtain ⟨⟨ss, ps⟩, k₁, h₁⟩ := compileChain_emits d q.chain 0
  obtain ⟨⟨sql, ps₂⟩, k₂, h₂⟩ := compileSingle_emits d q.toStmtState (countAfter d 0 k₁)
  refine ⟨(String.intercalate "; " (ss ++ [sql]), ps ++ ps₂), k₁ + k₂, fun c t => ?_⟩
  simp only [QueryState.compile, h₁, h₂, state_merge]

theorem comparison_run (d : Dialect) (l : Fld) (op : String) (r : Value)
    (c : Nat) (t : List String) :
    Condition.compile d (.comparison l op r) ⟨c, t⟩
      = ((l.str ++ " " ++ op ++ " " ++ phAt d c, [r]),
         ⟨countAfter d c 1, t ++ phList d c 1⟩) := by
  simp only [Condition.compile, nextPlaceholder_run]

/-- C1: the spec demands that `field == None` compile to `field IS NULL`
with zero placeholders and `field != None` to `IS NOT NULL`.  The code has
no such special case: `Field.__eq__`/`__ne__` always build a Condition whose
compile emits one placeholder bound to NULL, so under Postgres
`Field("email") == None` compiles to `"email" = $1` with parameter list
`[None]` — not to the `"email" IS NULL` that the separate `IS_NULL()` helper
would produce, and with a non-empty parameter list. -/
theorem claim_c1_eq_none_counterexample :
    (Condition.compile .postgres (Fld.eq ⟨"email", none⟩ .null) ⟨0, []⟩).1
      = (dq ++ "email" ++ dq ++ " = $1", [Value.null])
    ∧ (Condition.compile .postgres (Fld.ne ⟨"email", none⟩ .null) ⟨0, []⟩).1
      = (dq ++ "email" ++ dq ++ " <> $1", [Value.null])
    ∧ (Condition.compile .postgres (Fld.eq ⟨"email", none⟩ .null) ⟨0, []⟩).1.1
      ≠ Fld.IS_NULL ⟨"email", none⟩
    ∧ (Condition.compile .postgres (Fld.eq ⟨"email", none⟩ .null) ⟨0, []⟩).1.2 ≠ [] := by
  have h1 := comparison_run .postgres ⟨"email", none⟩ "=" .null 0 []
  have h2 := comparison_run .postgres ⟨"email", none⟩ "<>" .null 0 []
  refine ⟨?_, ?_, ?_, ?_⟩ <;>
    simp [Fld.eq, Fld.ne, h1, h2, Fld.str, Fld.IS_NULL, phAt, dq] <;> decide

/-- C5: for a literal list of N values, `Field.IN` compiles to an IN
predicate holding exactly the N consecutive dialect placeholders in list
order, and the returned parameter list is the input list itself. -/
theorem claim_c5_in_n_placeholders (d : Dialect) (f : Fld) (vs : List Value)
    (c : Nat) (t : List String) :
    Condition.compile d (Fld.IN f (.list vs)) ⟨c, t⟩
      = ((f.str ++ " IN (" ++ String.intercalate ", " (phList d c vs.length) ++ ")", vs),
         ⟨countAfter d c vs.length, t ++ phList d c vs.length⟩)
    ∧ (phList d c vs.length).length = vs.length := by
  constructor
  · simp only [Fld.IN, Condition.compile, inPlaceholders_run]
    simp [String.append_assoc]
  · simp [phList]

/-- C6: in Function.compile, every string argument is inlined as a quoted
literal with single quotes doubled (plus backslashes doubled under the MySQL
compiler) and contributes no parameter, every field-like argument is
rendered by str() and contributes no parameter, and every argument that is
neither a string, nor compilable, nor field-like becomes exactly one
placeholder token with that argument's value appended to the parameter
list in argument order. -/
theorem claim_c6_function_literal_inlining (d : Dialect) (name : String)
    (args : List FArg) (al : Option String) (c : Nat) (t : List String) :
    ∃ (rends : List String) (contribs : List (List Value)),
      List.Forall₂ (fargRenderOk d) args rends ∧
      List.Forall₂ fargContrib args contribs ∧
      (Func.compile d ⟨name, args, al⟩ ⟨c, t⟩).1
        = ((match al with
            | some a => name ++ "(" ++ String.intercalate ", " rends ++ ")" ++ " AS " ++ a
            | none => name ++ "(" ++ String.intercalate ", " rends ++ ")"),
           contribs.flatten) := by
  obtain ⟨rends, contribs, k, hr, hc, hrun⟩ := fargsCompile_run d args c
  refine ⟨rends, contribs, hr, hc, ?_⟩
  simp only [Func.compile, hrun]

/-- C2: under the Postgres dialect one top-level compile resets the
placeholder counter and then emits exactly the tokens dollar-1 through
dollar-n in strictly increasing order — the single counter is shared by
every nested sub-expression and every chained statement of that compile,
since the recorded trace covers the whole run. -/
theorem claim_c2_postgres_placeholder_numbering (q : QueryState) (c : Nat)
    (t : List String) :
    ∃ n : Nat,
      (QueryState.compile .postgres q ⟨c, t⟩).2.trace
        = t ++ (List.range n).map (fun i => "$" ++ toString (i + 1))
      ∧ (QueryState.compile .postgres q ⟨c, t⟩).2.count = n := by
  obtain ⟨out, k, h⟩ := QueryState.compile_run .postgres q
  refine ⟨k, ?_, ?_⟩
  · rw [h c t]
    simp [phList, phAt, countAfter]
  · rw [h c t]
    simp [countAfter]

/-- C9: compiling the same QueryState twice yields the same (sql, params)
pair whatever the two compiler instances' counter or trace state was —
determinism, and independence from any prior use of the compiler object
(compile resets the counter on entry; the embedded state record is never
modified, compilation being a pure function of it). -/
theorem claim_c9_compile_deterministic (d : Dialect) (q : QueryState)
    (c₁ c₂ : Nat) (t₁ t₂ : List String) :
    (QueryState.compile d q ⟨c₁, t₁⟩).1 = (QueryState.compile d q ⟨c₂, t₂⟩).1 := by
  obtain ⟨out, k, h⟩ := QueryState.compile_run d q
  rw [h c₁ t₁, h c₂ t₂]

/-- A table argument as accepted by INSERT_INTO / DELETE_FROM (query.py
lines 449-452 and 515-516): a plain string or a Table object. -/
inductive TableArg where
  | str (s : String)
  | table (t : Table)

/-- A column argument of INSERT_INTO (query.py lines 526-534): a string is
double-quoted, anything else Python renders with str() — a Field renders as
its qualified quoted form. -/
inductive ColArg where
  | str (s : String)
  | field (f : Fld)

/-- A SELECT argument (query.py lines 665-722), one constructor per dispatch
branch: a string, a Table (has __tn__), a compilable object (window
function, generic function or condition), and a Field (has .table). -/
inductive SelectArg where
  | str (s : String)
  | table (t : Table)
  | winfn (w : WinFn)
  | func (f : Func)
  | cond (cd : Condition)
  | field (f : Fld)

/-- One positional argument of VALUES (query.py lines 768-788): either an
atomic value or a list/tuple of atomic values.  A single argument that is a
list of lists, and calls mixing rows with atoms, iterate non-list values as
rows in Python and are outside this model. -/
inductive VArg where
  | atom (v : Value)
  | row (r : List Value)

/-- The row reading of one VALUES argument in the multiple-rows branch
(query.py line 783).  An atom in that branch is not iterable in Python; the
singleton reading here keeps the function total and is never exercised by
well-shaped calls. -/
def VArg.asRow : VArg → List Value
  | .row r => r
  | .atom v => [v]

/-- The atom reading of one VALUES argument in the single-flat-row branch
(query.py line 786).  A row in that branch would stay a nested tuple in
Python; the placeholder null here keeps the function total and is never
exercised by well-shaped calls. -/
def VArg.asAtom : VArg → Value
  | .atom v => v
  | .row _ => Value.null

/-- The Query facade (query.py lines 79-214), restricted to the state the
builder methods of the claims read and write: the live QueryState, the
tracked table names and orphans, the callstack, the pause-cloning flag and
the statement separator.  The `uid` field is ghost instrumentation for
Python object identity: `_clone` hands out a fresh uid exactly when it
builds a new object, and returns the receiver's uid unchanged when it
returns `self`.  Connection configuration, the compiler object and the
Database wrapper are not modelled. -/
structure Query where
  qstate : QueryState
  tablenames : List String
  orphans : List String
  callstack : List String
  pauseCloning : Bool
  tSep : String
  alias? : Option String
  uid : Nat

/-- A freshly constructed Query (query.py lines 175-201): default state,
cloning active, empty separator. -/
def mkQuery : Query :=
  ⟨{ toStmtState := emptyStmt, chain := [] }, [], [], [], false, "", none, 0⟩

/-- Query._clone (query.py lines 260-286): under an active pause flag the
method returns `self` unchanged; otherwise it builds a fresh Query (whose
constructor resets the pause flag, the separator and the alias) and copies
the state, table names, orphans and callstack onto it. -/
def Query.clone (q : Query) : Query :=
  if q.pauseCloning then q
  else
    { qstate := q.qstate
      tablenames := q.tablenames
      orphans := q.orphans
      callstack := q.callstack
      pauseCloning := false
      tSep := ""
      alias? := none
      uid := q.uid + 1 }

/-- Replace the live statement's type (the assignments
`self._state.statement_type = ...` of query.py). -/
def Query.setType (q : Query) (ty : StmtType) : Query :=
  { q with qstate := { q.qstate with toStmtState :=
      { q.qstate.toStmtState with statement_type := ty } } }

/-- Query._chain_state (query.py lines 288-301): when the live state is
dirty — non-SELECT type, or any selects, or any from sources — it is
archived at the end of the chain and a fresh default state becomes live. -/
def Query.chainState (q : Query) : Query :=
  let s := q.qstate
  if s.statement_type ≠ .SELECT ∨ ¬s.selects.isEmpty ∨ ¬s.from_sources.isEmpty then
    { q with qstate := { toStmtState := emptyStmt, chain := s.chain ++ [s.toStmtState] } }
  else q

/-- Query.BEGIN (query.py lines 420-428): clone (a real clone, since the
pause flag is not yet set on a fresh query), set the separator and the pause
flag, record the call, archive a dirty state and mark the live state
BEGIN. -/
def Query.BEGIN (q : Query) : Query :=
  let this := q.clone
  let this := { this with
    tSep := "; "
    pauseCloning := true
    callstack := this.callstack ++ ["BEGIN"] }
  (this.chainState).setType .BEGIN

/-- Query.COMMIT (query.py lines 430-437): clear the pause flag on self,
record the call, archive the live state and mark the live state COMMIT,
resetting the separator. -/
def Query.COMMIT (q : Query) : Query :=
  let this := { q with
    pauseCloning := false
    callstack := q.callstack ++ ["COMMIT"] }
  let this := (this.chainState).setType .COMMIT
  { this with tSep := "" }

/-- Query.INSERT_INTO (query.py lines 505-535): clone (returning self while
paused), record the call, set the pause flag, archive the live state, mark
it INSERT, and store the quoted table and column names.  The column
arguments are carried here already flattened (the source accepts either one
list argument or several positional arguments and flattens to the same
list); the `_consequence` and `_insert_args` bookkeeping fields are not
modelled. -/
def Query.INSERT_INTO (q : Query) (table : TableArg) (cols : List ColArg) : Query :=
  let this := q.clone
  let this := { this with
    callstack := this.callstack ++ ["INSERT INTO "]
    pauseCloning := true }
  let this := (this.chainState).setType .INSERT
  let tn := match table with
    | .table tb => tb.tn
    | .str s => dq ++ s ++ dq
  let quotedCols := cols.map (fun cx =>
    match cx with
    | .str s => dq ++ s ++ dq
    | .field f => f.str)
  { this with qstate := { this.qstate with toStmtState :=
      { this.qstate.toStmtState with
          insert_table := some tn
          insert_columns := quotedCols } } }

/-- Character-level split used to model Python str.split("."): groups the
characters between separator occurrences, keeping empty groups, so that
splitting the empty string yields one empty part exactly as in Python. -/
def splitOnChar (sep : Char) : List Char → List (List Char)
  | [] => [[]]
  | c :: rest =>
      let r := splitOnChar sep rest
      if c = sep then [] :: r
      else
        match r with
        | g :: gs => (c :: g) :: gs
        | [] => [[c]]

/-- Python str.split(".") over a Lean string. -/
def pySplitDot (s : String) : List String :=
  (splitOnChar (Char.ofNat 46) s.data).map (fun cs => String.mk cs)

/-- Query.get_tablename (query.py lines 340-356): Tables report __tn__,
strings of two or more dot-separated parts report the second-to-last part,
Fields report their table's __tn__ when qualified, everything else None. -/
def getTablename (arg : SelectArg) : Option String :=
  match arg with
  | .table t => some t.tn
  | .str s =>
      let processed := pySplitDot s
      if 2 ≤ processed.length then some (processed.getD (processed.length - 2) "")
      else none
  | .field f =>
      match f.table with
      | some t => some t.tn
      | none => none
  | _ => none

/-- Set-style insertion into the tracked name lists (Python uses set.add;
iteration order of those sets is never consumed by the claims). -/
def addName (l : List String) (x : String) : List String :=
  if x ∈ l then l else l ++ [x]

/-- Fold of addName over the optional table names harvested from SELECT
arguments (query.py lines 695-698). -/
def addNames (l : List String) (xs : List (Option String)) : List String :=
  xs.foldl (fun acc ox =>
    match ox with
    | some x => addName acc x
    | none => acc) l

/-- The per-argument rendering of SELECT with two or more arguments
(query.py lines 702-721). -/
def selectMulti (arg : SelectArg) : Node :=
  match arg with
  | .str s => .raw s
  | .table t => .raw ((match t.alias? with | some a => a | none => t.name) ++ ".*")
  | .winfn w => .winfn w
  | .func f => .func f
  | .cond cd => .compilable cd
  | .field f => .raw f.str

/-- Query.SELECT (query.py lines 654-724): clone (returning self while
paused), record the call; a live UPDATE / DELETE / BEGIN / COMMIT state is
archived and the type set to SELECT, any other non-INSERT type is set to
SELECT in place, while a live INSERT keeps its type so the select list
becomes the INSERT's source (INSERT ... SELECT); then the argument dispatch
fills the select list and the tracked table names. -/
def Query.SELECT (q : Query) (args : List SelectArg) : Query :=
  let this := q.clone
  let this := { this with callstack := this.callstack ++ ["SELECT"] }
  let this :=
    if this.qstate.statement_type = .UPDATE ∨ this.qstate.statement_type = .DELETE
        ∨ this.qstate.statement_type = .BEGIN ∨ this.qstate.statement_type = .COMMIT then
      (this.chainState).setType .SELECT
    else if this.qstate.statement_type ≠ .INSERT then
      this.setType .SELECT
    else this
  let (this, cols) :=
    match args with
    | [] => (this, [Node.raw "*"])
    | [arg] =>
        match arg with
        | .str s =>
            (match getTablename (.str s) with
             | some tb => ({ this with tablenames := addName this.tablenames tb }, [Node.raw s])
             | none => ({ this with orphans := addName this.orphans s }, [Node.raw s]))
        | .table t => ({ this with tablenames := addName this.tablenames t.tn }, [Node.raw "*"])
        | .winfn w => (this, [Node.winfn w])
        | .func f => (this, [Node.func f])
        | .cond cd => (this, [Node.compilable cd])
        | .field f =>
            (match f.table with
             | some t => ({ this with tablenames := addName this.tablenames t.tn }, [Node.raw f.str])
             | none => (this, [Node.raw f.str]))
    | _ =>
        let this := { this with tablenames := addNames this.tablenames (args.map getTablename) }
        let extra := args.map (fun (a : SelectArg) =>
          match a with
          | .table t => some t.tn
          | .field f => (match f.table with | some t => some t.tn | none => none)
          | _ => none)
        let this := { this with tablenames := addNames this.tablenames extra }
        (this, args.map selectMulti)
  { this with qstate := { this.qstate with toStmtState :=
      { this.qstate.toStmtState with selects := cols } } }

/-- Query.VALUES (query.py lines 768-788): a single list argument is one
flat row; several arguments whose first is a list are each one row; several
atomic arguments form one row; the detected rows are appended to
insert_values. -/
def Query.VALUES (q : Query) (args : List VArg) : Query :=
  let this := { q with callstack := q.callstack ++ ["VALUES "] }
  let rows :=
    match args with
    | [.row elem] => [elem]
    | .row _ :: _ => args.map VArg.asRow
    | _ => [args.map VArg.asAtom]
  { this with qstate := { this.qstate with toStmtState :=
      { this.qstate.toStmtState with insert_values :=
        this.qstate.insert_values ++ rows } } }

set_option maxRecDepth 8000 in
/-- C3: building BEGIN(); INSERT_INTO(t, cols); SELECT(col); COMMIT() on one
Query yields one "; "-joined string that carries BEGIN, the INSERT, the
SELECT and COMMIT in call order — the SELECT is rendered inside the INSERT
statement as its INSERT ... SELECT source, since SELECT on a live INSERT
state keeps the INSERT type (query.py lines 659-663) — and while the
pause-cloning flag set by BEGIN is active the intermediate INSERT_INTO and
SELECT calls return the very object BEGIN returned (same ghost uid), until
COMMIT clears the flag; BEGIN itself, called before the flag is set, returns
a fresh clone. -/
theorem claim_c3_transaction_chain :
    (QueryState.compile .postgres
        ((((mkQuery.BEGIN).INSERT_INTO (.str "t") [.str "a", .str "b"]).SELECT
            [.str "x"]).COMMIT).qstate ⟨0, []⟩).1
      = ("BEGIN" ++ "; " ++ "INSERT INTO \"t\" (\"a\", \"b\") " ++ "SELECT x"
          ++ "; " ++ "COMMIT;", [])
    ∧ ((mkQuery.BEGIN).INSERT_INTO (.str "t") [.str "a", .str "b"]).uid
        = (mkQuery.BEGIN).uid
    ∧ (((mkQuery.BEGIN).INSERT_INTO (.str "t") [.str "a", .str "b"]).SELECT
        [.str "x"]).uid = (mkQuery.BEGIN).uid
    ∧ (mkQuery.BEGIN).uid ≠ mkQuery.uid
    ∧ (mkQuery.BEGIN).pauseCloning = true
    ∧ ((((mkQuery.BEGIN).INSERT_INTO (.str "t") [.str "a", .str "b"]).SELECT
        [.str "x"]).COMMIT).pauseCloning = false := by
  decide

set_option maxRecDepth 8000 in
/-- C4: INSERT_INTO("t", ("a","b")).VALUES((1,2),(3,4)) compiles (shown
under SQLite) to an INSERT whose VALUES clause holds exactly two
parenthesized groups of two placeholders each, with the parameter list
[1, 2, 3, 4] in row-major order; the ghost trace confirms exactly four
placeholders were emitted. -/
theorem claim_c4_values_two_groups_row_major :
    (QueryState.compile .sqlite
        ((Query.VALUES (Query.INSERT_INTO mkQuery (.str "t") [.str "a", .str "b"])
          [.row [.int 1, .int 2], .row [.int 3, .int 4]]).qstate) ⟨0, []⟩).1
      = ("INSERT INTO \"t\" (\"a\", \"b\") VALUES " ++ "(?, ?)" ++ ", " ++ "(?, ?)",
         [.int 1, .int 2, .int 3, .int 4])
    ∧ (QueryState.compile .sqlite
        ((Query.VALUES (Query.INSERT_INTO mkQuery (.str "t") [.str "a", .str "b"])
          [.row [.int 1, .int 2], .row [.int 3, .int 4]]).qstate) ⟨0, []⟩).2.trace
      = ["?", "?", "?", "?"]
    ∧ (Query.VALUES (Query.INSERT_INTO mkQuery (.str "t") [.str "a", .str "b"])
        [.row [.int 1, .int 2], .row [.int 3, .int 4]]).qstate.insert_values
      = [[.int 1, .int 2], [.int 3, .int 4]] := by
  decide

set_option maxRecDepth 8000 in
/-- C7: the claim states the rendering order NAME(...) FILTER OVER AS; the
code (window.py line 224) concatenates func_call + over_clause +
filter_clause, so with both FILTER and OVER present the OVER clause comes
out before the FILTER clause, as the first conjunct shows.  The remaining
conjuncts confirm the claim's other two parts: an explicit OVER() with no
argument still renders `OVER ()`, and never calling OVER renders the plain
call with no OVER clause at all. -/
theorem claim_c7_window_over_before_filter :
    (WinFn.compile .postgres
        ((WinFn.FILTER ⟨"COUNT", [.raw "\"x\""], none, none, none, false⟩
          (.compilable (Fld.eq ⟨"y", none⟩ (.int 5)))).OVER none) ⟨0, []⟩).1
      = ("COUNT(\"x\")" ++ " OVER ()" ++ " FILTER (WHERE \"y\" = $1)", [.int 5])
    ∧ (WinFn.compile .postgres
        (WinFn.OVER ⟨"COUNT", [.raw "\"x\""], none, none, none, false⟩ none) ⟨0, []⟩).1
      = ("COUNT(\"x\")" ++ " OVER ()", [])
    ∧ (WinFn.compile .postgres
        (⟨"COUNT", [.raw "\"x\""], none, none, none, false⟩ : WinFn) ⟨0, []⟩).1
      = ("COUNT(\"x\")", []) := by
  refine ⟨?_, ?_, ?_⟩ <;>
    simp [WinFn.compile, WinFn.FILTER, WinFn.OVER, winFuncCall, winFilterClause,
      winOverClause, wargsCompile, WindowSpec.compile, Fld.eq, comparison_run,
      Fld.str, phAt, dq, String.append_assoc] <;> decide

/-- The hand-rolled SQLite pool state (sqlite.py lines 101-113): the FIFO
queue of idle connections (asyncio.Queue: put appends, get pops the front),
the count of connections created and not closed, and the configured bounds.
Connections are carried as ghost numeric ids; min_size is stored by the
source but never drives any behaviour. -/
structure PoolState where
  queue : List Nat
  current_size : Nat
  max_size : Nat
  timeout : Nat

/-- A freshly constructed pool (sqlite.py lines 110-111): empty queue, zero
outstanding connections. -/
def mkPool (maxSize timeout : Nat) : PoolState :=
  ⟨[], 0, maxSize, timeout⟩

/-- Outcome of the non-waiting part of Pool.acquire: an idle connection was
popped, a new connection was created, creation failed and the exception
re-raised, or the pool is saturated and the caller must wait on the
queue. -/
inductive AcquireOut where
  | acquired (c : Nat)
  | created (c : Nat)
  | creationFailed
  | mustWait
deriving DecidableEq

/-- Pool.acquire up to the waiting step (sqlite.py lines 115-152): first a
non-blocking pop from the idle queue; when the queue is empty and
current_size < max_size, the count is incremented under the mutex and a
connection created — on a creation exception the increment is rolled back
(line 150: `self._current_size -= 1`) and the exception re-raised; when the
pool is saturated the caller falls through to the timed wait.  `newConn` is
the ghost id the driver would hand out, `createOk` whether
aiosqlite.connect succeeds.  The mutex of line 134 is modelled by this
whole step being one atomic transition. -/
def PoolState.acquire (s : PoolState) (newConn : Nat) (createOk : Bool) :
    AcquireOut × PoolState :=
  match s.queue with
  | c :: rest => (.acquired c, { s with queue := rest })
  | [] =>
      if s.current_size < s.max_size then
        if createOk then
          (.created newConn, { s with current_size := s.current_size + 1 })
        else
          (.creationFailed, { s with current_size := s.current_size + 1 - 1 })
      else (.mustWait, s)

/-- Outcome of the timed wait (sqlite.py lines 154-162): a released
connection from the queue, or the typed TimeoutError raised when the
timeout elapses. -/
inductive WaitOut where
  | got (c : Nat)
  | timedOut
deriving DecidableEq

/-- The timed wait of Pool.acquire (sqlite.py lines 154-162): a waiter that
finds a (released) connection in the queue pops it; with nothing released
before the timeout, asyncio.wait_for raises TimeoutError which acquire
re-raises as the typed TimeoutError, leaving the pool state unchanged. -/
def PoolState.waitForRelease (s : PoolState) : WaitOut × PoolState :=
  match s.queue with
  | c :: rest => (.got c, { s with queue := rest })
  | [] => (.timedOut, s)

/-- asyncio.Queue.full(): false for maxsize zero, otherwise qsize ≥ maxsize
(the queue of sqlite.py line 110 is built with maxsize = max_size). -/
def PoolState.queueFull (s : PoolState) : Bool :=
  decide (0 < s.max_size) && decide (s.max_size ≤ s.queue.length)

/-- Pool.release (sqlite.py lines 164-180): a full queue means broken
accounting, so the overflow connection is closed and the count decremented;
otherwise the connection is pushed onto the back of the idle queue. -/
def PoolState.release (s : PoolState) (c : Nat) : PoolState :=
  if s.queueFull then { s with current_size := s.current_size - 1 }
  else { s with queue := s.queue ++ [c] }

/-- Pool.close (sqlite.py lines 182-193): every idle connection is drained
and closed and the count reset to zero. -/
def PoolState.closeAll (s : PoolState) : PoolState :=
  { s with queue := [], current_size := 0 }

/-- One observable pool transition: an acquire attempt (with arbitrary
driver outcome), a wakeup or timeout of a waiter, a release, or close. -/
inductive PoolStep : PoolState → PoolState → Prop
  | acq (s : PoolState) (newConn : Nat) (createOk : Bool) :
      PoolStep s (s.acquire newConn createOk).2
  | wait (s : PoolState) : PoolStep s s.waitForRelease.2
  | rel (s : PoolState) (c : Nat) : PoolStep s (s.release c)
  | close (s : PoolState) : PoolStep s s.closeAll

/-- The pool states reachable from a fresh pool by acquire / wait / release
/ close steps. -/
inductive PoolReachable (init : PoolState) : PoolState → Prop
  | refl : PoolReachable init init
  | step {a b : PoolState} :
      PoolReachable init a → PoolStep a b → PoolReachable init b

theorem poolStep_size_le {a b : PoolState} (hstep : PoolStep a b)
    (h : a.current_size ≤ a.max_size) : b.current_size ≤ b.max_size := by
  cases hstep with
  | acq newConn createOk =>
      unfold PoolState.acquire
      cases hq : a.queue with
      | cons c rest => simpa using h
      | nil =>
          by_cases hlt : a.current_size < a.max_size
          · cases createOk <;> simp [hlt] <;> omega
          · simp [hlt]
            exact h
  | wait =>
      unfold PoolState.waitForRelease
      cases hq : a.queue <;> simpa using h
  | rel c =>
      unfold PoolState.release
      by_cases hf : a.queueFull = true <;> simp [hf] <;> omega
  | close =>
      simp [PoolState.closeAll]

/-- C8: every pool state reachable from a fresh pool keeps at most max_size
live connections, and the acquire algorithm behaves as specified: a
non-empty idle queue is popped first without touching the count, a new
connection is created (count incremented atomically) exactly when the queue
is empty and current_size < max_size, a saturated pool sends the caller to
the timed wait, and a wait that no release satisfies ends in the typed
timeout outcome with the state unchanged. -/
theorem claim_c8_pool_bounded (maxSize timeout : Nat) (s : PoolState)
    (h : PoolReachable (mkPool maxSize timeout) s) :
    s.current_size ≤ s.max_size
    ∧ (∀ c rest, s.queue = c :: rest → ∀ nc ok,
        s.acquire nc ok = (.acquired c, { s with queue := rest }))
    ∧ (s.queue = [] → s.current_size < s.max_size → ∀ nc,
        s.acquire nc true = (.created nc, { s with current_size := s.current_size + 1 }))
    ∧ (s.queue = [] → ¬s.current_size < s.max_size → ∀ nc ok,
        s.acquire nc ok = (.mustWait, s))
    ∧ (s.queue = [] → s.waitForRelease = (.timedOut, s)) := by
  refine ⟨?_, ?_, ?_, ?_, ?_⟩
  · induction h with
    | refl => simp [mkPool]
    | step hr hs ih => exact poolStep_size_le hs ih
  · intro c rest hq nc ok
    simp [PoolState.acquire, hq]
  · intro hq hlt nc
    simp [PoolState.acquire, hq, hlt]
  · intro hq hlt nc ok
    simp [PoolState.acquire, hq, hlt]
  · intro hq
    simp [PoolState.waitForRelease, hq]

/-- Witness for C8 at a concrete trace: a pool of size two after two
successful creations and one saturated acquire attempt. -/
theorem claim_c8_pool_bounded_witness :
    (((mkPool 2 60).acquire 7 true).2.acquire 8 true).2.current_size
      ≤ (((mkPool 2 60).acquire 7 true).2.acquire 8 true).2.max_size :=
  (claim_c8_pool_bounded 2 60 (((mkPool 2 60).acquire 7 true).2.acquire 8 true).2
    (.step (.step .refl (.acq (mkPool 2 60) 7 true))
      (.acq ((mkPool 2 60).acquire 7 true).2 8 true))).1

/-- C10: when connection creation fails inside acquire (queue empty, pool
not yet full), the increment of current_size is rolled back — the resulting
state's count equals the original — and the outcome is the re-raised
creation failure; the whole pool state is left unchanged. -/
theorem claim_c10_failed_create_rollback (s : PoolState) (nc : Nat)
    (hq : s.queue = []) (hlt : s.current_size < s.max_size) :
    s.acquire nc false = (.creationFailed, s)
    ∧ (s.acquire nc false).2.current_size = s.current_size := by
  obtain ⟨qu, cur, mx, tmo⟩ := s
  simp only at hq hlt
  subst hq
  have h : PoolState.acquire ⟨[], cur, mx, tmo⟩ nc false
      = (.creationFailed, ⟨[], cur, mx, tmo⟩) := by
    simp [PoolState.acquire, hlt]
  exact ⟨h, by rw [h]⟩

/-- Witness for C10 on a fresh pool of size two. -/
theorem claim_c10_failed_create_rollback_witness :
    (mkPool 2 60).acquire 5 false = (.creationFailed, mkPool 2 60)
    ∧ ((mkPool 2 60).acquire 5 false).2.current_size = (mkPool 2 60).current_size :=
  claim_c10_failed_create_rollback (mkPool 2 60) 5 rfl (by decide)
